import Mathlib

/-!
Verification of the job orchestration and event-broadcast subsystem of the
RalphWeb dashboard (`src/server.js` and `src/scripts/ralph.sh`), as a shallow
embedding in Lean 4.

The embedding mirrors the source:
* `Job` mirrors the job objects stored in the `activeJobs` map
  (`server.js` lines 489-497: `repo`, `type`, `status`, `iterations`,
  `startTime`, `cost`, `process`). The process handle is modelled by
  `hasProcess : Bool` (whether `job.process` is non-null) plus a
  `killed : Bool` ghost field recording whether `kill('SIGTERM')` was sent.
* `findIterMatch` mirrors `text.match(/Loop Iteration (\d+)/)` followed by
  `parseInt(iterMatch[1])`: leftmost occurrence of the literal
  "Loop Iteration " followed by at least one digit; greedy digit run.
* `onStdoutData` mirrors the `proc.stdout.on('data', ...)` handler of
  `POST /api/ralph` (lines 510-521).
* `onClose` mirrors the `proc.on('close', ...)` handler (lines 527-530).
* `postStop` mirrors the `POST /api/jobs/:id/stop` handler (lines 536-551).
* `postRalph` mirrors the `POST /api/ralph` handler (lines 472-533).
* `getCosts` mirrors the `GET /api/costs` handler (lines 554-571), with
  JavaScript numbers modelled as rationals and `toFixed` modelled by
  `toFixedQ`, including ECMA-262's fallback to `ToString` (exponential
  notation) for magnitudes of `10^21` and above.
* Namespace `RalphSh` models the main loop of `src/scripts/ralph.sh`
  (lines 126-257) under `set -e` (line 10), including the safety checks
  at lines 239-247.
-/

namespace RalphWeb

/-- Job status strings used in `server.js`:
`'running' | 'completed' | 'failed' | 'stopped'`. -/
inductive Status where
  | running
  | completed
  | failed
  | stopped
deriving DecidableEq, Repr

/-- Job type strings used in `server.js`: `'manager' | 'ralph'`. -/
inductive JobType where
  | manager
  | ralph
deriving DecidableEq, Repr

/-- A job object as stored in the `activeJobs` map (`server.js` 489-497).
`hasProcess` models `job.process !== null`; `killed` records whether
`job.process.kill('SIGTERM')` has been invoked (the handle itself is never
set back to null by the source). `startTime` is omitted: no claim reads it. -/
structure Job where
  repo : String
  type : JobType
  status : Status
  iterations : Nat
  cost : ℚ
  hasProcess : Bool
  killed : Bool
deriving DecidableEq, Repr

/-- Events broadcast over the WebSocket (`broadcast(...)` calls in
`server.js`). `jobStarted` carries the job summary (minus the process
handle), `jobCompleted` carries the status and, on the ralph close path,
the cost. -/
inductive Event where
  | jobStarted (jobId : Nat) (job : Job)
  | log (jobId : Nat) (data : List Char)
  | jobUpdate (jobId : Nat) (iterations : Nat) (cost : ℚ)
  | jobCompleted (jobId : Nat) (status : Status) (cost : Option ℚ)
deriving DecidableEq, Repr

/-- Whether an event is a `job_update` broadcast. -/
def Event.isJobUpdate : Event → Bool
  | .jobUpdate _ _ _ => true
  | _ => false

/-- The literal part of the regex `/Loop Iteration (\d+)/`. -/
def iterMarker : List Char := "Loop Iteration ".data

/-- Greedy digit run: `(\d+)` capture. Returns the digits and the rest. -/
def takeDigits : List Char → List Char × List Char
  | [] => ([], [])
  | c :: cs =>
    if c.isDigit then
      let p := takeDigits cs
      (c :: p.1, p.2)
    else ([], c :: cs)

/-- `parseInt` on a non-empty decimal digit string. -/
def digitsToNat (ds : List Char) : Nat :=
  ds.foldl (fun a c => 10 * a + (c.toNat - 48)) 0

/-- `text.match(/Loop Iteration (\d+)/)` followed by `parseInt` of the
capture: value of the leftmost match, `none` if the regex does not match.
A position matches when the literal `"Loop Iteration "` occurs there and
is immediately followed by at least one digit; the capture is the maximal
digit run (greedy `\d+`). -/
def findIterMatch : List Char → Option Nat
  | [] => none
  | c :: cs =>
    if iterMarker.isPrefixOf (c :: cs) then
      match takeDigits ((c :: cs).drop iterMarker.length) with
      | ([], _) => findIterMatch cs
      | (ds, _) => some (digitsToNat ds)
    else findIterMatch cs

/-- Cost per iteration (`job.cost = job.iterations * 0.00255`,
`server.js` line 518). -/
def perIterationRate : ℚ := 255 / 100000

/-- The `proc.stdout.on('data', ...)` handler of `POST /api/ralph`
(`server.js` 510-521): broadcast the chunk as a `log` event; if the chunk
matches `/Loop Iteration (\d+)/`, set `job.iterations` to the parsed value,
recompute `job.cost`, and broadcast a `job_update`. -/
def onStdoutData (jobId : Nat) (j : Job) (data : List Char) : Job × List Event :=
  match findIterMatch data with
  | some n =>
    ({ j with iterations := n, cost := n * perIterationRate },
      [Event.log jobId data, Event.jobUpdate jobId n (n * perIterationRate)])
  | none => (j, [Event.log jobId data])

/-- Deliver a sequence of stdout chunks to the handler in order,
accumulating the broadcast events. -/
def processChunks (jobId : Nat) (j : Job) : List (List Char) → Job × List Event
  | [] => (j, [])
  | c :: cs =>
    let p := onStdoutData jobId j c
    let q := processChunks jobId p.1 cs
    (q.1, p.2 ++ q.2)

/-- The `proc.on('close', ...)` handler of `POST /api/ralph`
(`server.js` 527-530): unconditionally set the status from the exit code
and broadcast `job_completed` with the cost. -/
def onClose (jobId : Nat) (j : Job) (code : Int) : Job × List Event :=
  let j' := { j with status := if code = 0 then Status.completed else Status.failed }
  (j', [Event.jobCompleted jobId j'.status (some j'.cost)])

/-- Server state relevant to the claims: the `activeJobs` map (a JavaScript
`Map`, insertion-ordered, modelled as an association list) and the
`jobIdCounter` (`server.js` 162-163). -/
structure ServerState where
  activeJobs : List (Nat × Job)
  jobIdCounter : Nat
deriving DecidableEq, Repr

/-- `activeJobs.get(jobId)`. -/
def ServerState.getJob (st : ServerState) (jobId : Nat) : Option Job :=
  (st.activeJobs.find? (fun p => p.1 == jobId)).map (·.2)

/-- Replace the entry for `jobId` (the source mutates the job object held in
the map in place; entries are never removed). -/
def ServerState.setJob (st : ServerState) (jobId : Nat) (j : Job) : ServerState :=
  { st with activeJobs := st.activeJobs.map (fun p => if p.1 == jobId then (p.1, j) else p) }

/-- Response of `POST /api/jobs/:id/stop`: `404 {error}` or `{success: true}`. -/
inductive StopResp where
  | notFound
  | success
deriving DecidableEq, Repr

/-- The `POST /api/jobs/:id/stop` handler (`server.js` 536-551): 404 if the
id is unknown; otherwise, if the job has a process handle, send SIGTERM, set
the status to `stopped` and broadcast `job_completed`; in every known-id case
respond `{success: true}`. -/
def postStop (st : ServerState) (jobId : Nat) : ServerState × StopResp × List Event :=
  match st.getJob jobId with
  | none => (st, StopResp.notFound, [])
  | some job =>
    if job.hasProcess then
      let j' := { job with killed := true, status := Status.stopped }
      (st.setJob jobId j', StopResp.success,
        [Event.jobCompleted jobId Status.stopped none])
    else
      (st, StopResp.success, [])

/-- Response of `POST /api/ralph`. -/
inductive RalphResp where
  | errRepoRequired
  | errRepoNotFound
  | errNoPrd
  | ok (jobId : Nat)
deriving DecidableEq, Repr

/-- The file-system facts `POST /api/ralph` consults through
`fs.existsSync`: whether the repo directory and its `prd.json` exist. -/
structure WorkspaceFS where
  repoExists : String → Bool
  prdExists : String → Bool

/-- The `POST /api/ralph` handler (`server.js` 472-533): 400 if no repo in
the body; 404 if the repo directory is missing; 400 if it has no `prd.json`;
otherwise allocate the next job id, register a running ralph job with
`iterations = 0`, `cost = 0`, broadcast `job_started`, and spawn the loop
script (after which `job.process` is set). -/
def postRalph (fsw : WorkspaceFS) (st : ServerState) (repo : Option String) :
    ServerState × RalphResp × List Event :=
  match repo with
  | none => (st, RalphResp.errRepoRequired, [])
  | some r =>
    if fsw.repoExists r = false then
      (st, RalphResp.errRepoNotFound, [])
    else if fsw.prdExists r = false then
      (st, RalphResp.errNoPrd, [])
    else
      let jobId := st.jobIdCounter
      let started : Job :=
        { repo := r, type := JobType.ralph, status := Status.running,
          iterations := 0, cost := 0, hasProcess := false, killed := false }
      let job := { started with hasProcess := true }
      ({ activeJobs := st.activeJobs ++ [(jobId, job)], jobIdCounter := st.jobIdCounter + 1 },
        RalphResp.ok jobId,
        [Event.jobStarted jobId started])

/-- Decimal digit character. -/
def digitChar (n : Nat) : Char :=
  if n = 0 then '0' else if n = 1 then '1' else if n = 2 then '2'
  else if n = 3 then '3' else if n = 4 then '4' else if n = 5 then '5'
  else if n = 6 then '6' else if n = 7 then '7' else if n = 8 then '8' else '9'

/-- Decimal digits of a natural number, most significant first. -/
def natDigits (n : Nat) : List Char :=
  if _h : n < 10 then [digitChar n]
  else natDigits (n / 10) ++ [digitChar (n % 10)]
decreasing_by exact Nat.div_lt_self (by omega) (by omega)

/-- Exactly `d` decimal digits of `m` (mod `10 ^ d`), most significant
first: the zero-padded fractional part of `toFixed`. -/
def fracDigits : Nat → Nat → List Char
  | 0, _ => []
  | d + 1, m => digitChar (m / 10 ^ d % 10) :: fracDigits d m

/-- `x.toFixed(d)` for a non-negative rational below `10 ^ 21`: round
`x * 10 ^ d` to the nearest integer and print with exactly `d` digits
after the point. -/
def toFixedNN (d : Nat) (q : ℚ) : List Char :=
  let scaled : Nat := (round (q * 10 ^ d)).toNat
  natDigits (scaled / 10 ^ d) ++ '.' :: fracDigits d (scaled % 10 ^ d)

/-- Significand digits of a decimal digit string: trailing zeros
trimmed. -/
def sigDigits (ds : List Char) : List Char :=
  (ds.reverse.dropWhile (fun c => c == '0')).reverse

/-- Exponential notation `d.dd…de+NN` for a decimal digit string `ds`:
significand `sigDigits ds`, exponent `ds.length - 1`. -/
def expNotation (ds : List Char) : List Char :=
  match sigDigits ds with
  | [] => ['0']
  | d :: rest =>
    (if rest.isEmpty then [d] else d :: '.' :: rest)
      ++ 'e' :: '+' :: natDigits (ds.length - 1)

/-- ECMA-262 `Number::toString` (radix 10) as `Number.prototype.toFixed`
invokes it for magnitudes `x ≥ 10 ^ 21`, under the rational embedding of
JavaScript numbers.  Every finite double of that magnitude is an integer
and its exponent exceeds 21, so the result is the exponential notation of
its decimal digits.  (For rationals with a nontrivial denominator — which
no double of this magnitude has — the integer part is used.) -/
def toStringECMA (q : ℚ) : List Char :=
  expNotation (natDigits (q.num.toNat / q.den))

/-- JavaScript `Number.prototype.toFixed(d)` (ECMA-262 21.1.3.3): a leading
`-` for negative values; for magnitudes of `10 ^ 21` and above the result
is `ToString` of the magnitude (exponential notation), otherwise a
fixed-point decimal string with exactly `d` digits after the point. -/
def toFixedQ (d : Nat) (q : ℚ) : List Char :=
  if q < 0 then
    '-' :: (if 10 ^ 21 ≤ -q then toStringECMA (-q) else toFixedNN d (-q))
  else
    if 10 ^ 21 ≤ q then toStringECMA q else toFixedNN d q

/-- Response body of `GET /api/costs` (`server.js` 565-570): `totalCost` and
`budgetRemaining` are produced by `toFixed` and are therefore strings;
`managerCalls` and `ralphIterations` are numbers. -/
structure CostsResp where
  totalCost : List Char
  managerCalls : Nat
  ralphIterations : Nat
  budgetRemaining : List Char
deriving DecidableEq, Repr

/-- The accumulator loop of `GET /api/costs` (`server.js` 554-563):
`activeJobs.forEach` summing `job.cost`, counting manager jobs, and summing
iterations of ralph jobs. -/
def costTotals (st : ServerState) : ℚ × Nat × Nat :=
  st.activeJobs.foldl
    (fun acc p =>
      (acc.1 + p.2.cost,
        acc.2.1 + (if p.2.type = JobType.manager then 1 else 0),
        acc.2.2 + (if p.2.type = JobType.ralph then p.2.iterations else 0)))
    (0, 0, 0)

/-- The `GET /api/costs` handler (`server.js` 554-571): the totals above,
with `totalCost.toFixed(4)` and `(20 - totalCost).toFixed(2)`. -/
def getCosts (st : ServerState) : CostsResp :=
  let t := costTotals st
  { totalCost := toFixedQ 4 t.1
    managerCalls := t.2.1
    ralphIterations := t.2.2
    budgetRemaining := toFixedQ 2 (20 - t.1) }

/-!
Job-level action traces.  For one job, the three actors that touch its
registry entry after creation are the stdout data handler, the stop handler
and the close callback (`server.js` 510-521, 536-551, 527-530).  `Act`
is one such actor invocation; `runActs` applies an interleaving in order.
-/

/-- One registry-touching action on a single job. -/
inductive Act where
  | chunk (data : List Char)
  | stop
  | close (code : Int)
deriving DecidableEq, Repr

/-- Apply one action to a job, returning the new job and the events
broadcast.  `stop` is the per-job body of `postStop` on a known id;
`chunk` and `close` are the two process callbacks. -/
def applyAct (jobId : Nat) (j : Job) : Act → Job × List Event
  | .chunk data => onStdoutData jobId j data
  | .stop =>
    if j.hasProcess then
      ({ j with killed := true, status := Status.stopped },
        [Event.jobCompleted jobId Status.stopped none])
    else (j, [])
  | .close code => onClose jobId j code

/-- Apply an interleaving of actions in order, accumulating events. -/
def runActs (jobId : Nat) (j : Job) : List Act → Job × List Event
  | [] => (j, [])
  | a :: as =>
    let p := applyAct jobId j a
    let q := runActs jobId p.1 as
    (q.1, p.2 ++ q.2)

end RalphWeb

namespace RalphSh

/-- `echo "$RESULT" | grep -q "pat"` for a fixed pattern with no regex
metacharacters and no newline: does `pat` occur as a contiguous substring
of the text? -/
def grepMatch (pat : List Char) : List Char → Bool
  | [] => pat.isPrefixOf []
  | c :: cs => pat.isPrefixOf (c :: cs) || grepMatch pat cs

/-- `grep -q "Rate limit exceeded"` target (`ralph.sh` line 239). -/
def rateLimitMarker : List Char := "Rate limit exceeded".data

/-- `grep -q "API key"` target (`ralph.sh` line 244). -/
def apiKeyMarker : List Char := "API key".data

/-- `grep -q "<promise>DONE</promise>"` target (`ralph.sh` line 226). -/
def doneMarker : List Char := "<promise>DONE</promise>".data

/-- Outcome of the `ralph.sh` main loop: exit code and the number of the
iteration the script was in when it exited (0 when the loop body never
ran). -/
structure LoopOutcome where
  exitCode : Nat
  lastIteration : Nat
deriving DecidableEq, Repr

/-- The main loop of `ralph.sh` (lines 126-257) under `set -e` (line 10),
abstracting the environment as two functions of the iteration number:
`incomplete k` is the `jq`-computed count of incomplete stories observed in
iteration `k`, and `results k` is the `RESULT` text the AI tool produced in
iteration `k`.  `iter` is the current value of `ITERATION`, `fuel` the
remaining loop entries (`MAX_ITERATIONS - iter`); when the `while`
condition fails the script falls through to `exit 1` (lines 253-257).

The first body command is `((ITERATION++))` (line 128): the arithmetic
command's value is the pre-increment value of `ITERATION`, so on first
entry (`ITERATION = 0`) its exit status is 1 and `set -e` aborts the whole
script with exit code 1 (with `ITERATION` already incremented to 1) —
verified against bash.  Since the loop always starts from `ITERATION = 0`,
the rest of the body — the completion check (line 135), the tool run, and
the safety greps (lines 239-247) — is unreachable from the script's entry
point; it is modelled nonetheless for loop states with `iter > 0`. -/
def loopFrom (incomplete : Nat → Nat) (results : Nat → List Char) :
    Nat → Nat → LoopOutcome
  | iter, 0 => { exitCode := 1, lastIteration := iter }
  | iter, fuel + 1 =>
    let i := iter + 1
    if iter = 0 then
      { exitCode := 1, lastIteration := i }
    else if incomplete i = 0 then
      { exitCode := 0, lastIteration := i }
    else
      let r := results i
      if grepMatch rateLimitMarker r then
        { exitCode := 1, lastIteration := i }
      else if grepMatch apiKeyMarker r then
        { exitCode := 1, lastIteration := i }
      else
        loopFrom incomplete results i fuel

/-- Run `ralph.sh` with `MAX_ITERATIONS = maxIterations` from the start. -/
def ralphLoop (maxIterations : Nat) (incomplete : Nat → Nat)
    (results : Nat → List Char) : LoopOutcome :=
  loopFrom incomplete results 0 maxIterations

end RalphSh

open RalphWeb

/-- A freshly started execution-loop job, as `POST /api/ralph` registers it
once `job.process` has been attached. -/
def sampleStartedJob : Job :=
  { repo := "demo", type := JobType.ralph, status := Status.running,
    iterations := 0, cost := 0, hasProcess := true, killed := false }

/-- A job whose process handle is null (as between `activeJobs.set` and the
`job.process = proc` assignment). -/
def sampleDetachedJob : Job :=
  { sampleStartedJob with hasProcess := false }

/-- A registry holding one detached running job under id 1. -/
def sampleDetachedState : ServerState :=
  { activeJobs := [(1, sampleDetachedJob)], jobIdCounter := 2 }

/-- A job after `Stop`: terminal `stopped`, SIGTERM sent, handle attached. -/
def sampleStoppedJob : Job :=
  { sampleStartedJob with status := Status.stopped, killed := true }

/-- A job after a successful natural exit: terminal `completed`, its process
handle still attached (the source never nulls `job.process`). -/
def sampleCompletedJob : Job :=
  { sampleStartedJob with status := Status.completed }

/-- A registry holding one completed job under id 1. -/
def sampleCompletedState : ServerState :=
  { activeJobs := [(1, sampleCompletedJob)], jobIdCounter := 2 }

/-- A ralph job driven past cost `10 ^ 21` by a huge iteration marker:
`4·10^24` iterations at the per-iteration rate give cost `1.02·10^22`. -/
def sampleHugeJob : Job :=
  { sampleStartedJob with
    iterations := 4000000000000000000000000,
    cost := 10200000000000000000000 }

/-- A registry holding the huge-cost job under id 1. -/
def sampleHugeState : ServerState :=
  { activeJobs := [(1, sampleHugeJob)], jobIdCounter := 2 }

/-- Number of digits after the decimal point of a fixed-point decimal
string: `some k` when the string contains a `'.'` with `k` characters after
its last occurrence, `none` when the string has no point at all. -/
def decimalPlaces (s : List Char) : Option Nat :=
  if '.' ∈ s then some (s.reverse.takeWhile (fun c => c != '.')).length else none

/-- The `GET /api/costs` accumulator loop, evaluated: it computes the sum
of costs, the count of manager jobs and the total ralph iterations. -/
theorem costFold_eq (l : List (Nat × Job)) (a : ℚ × Nat × Nat) :
    l.foldl
      (fun acc p =>
        (acc.1 + p.2.cost,
          acc.2.1 + (if p.2.type = JobType.manager then 1 else 0),
          acc.2.2 + (if p.2.type = JobType.ralph then p.2.iterations else 0)))
      a
    = (a.1 + (l.map (fun p => p.2.cost)).sum,
        a.2.1 + (l.filter (fun p => p.2.type == JobType.manager)).length,
        a.2.2 + ((l.filter (fun p => p.2.type == JobType.ralph)).map
          (fun p => p.2.iterations)).sum) := by
  induction l generalizing a with
  | nil => simp
  | cons hd tl ih =>
    simp only [List.foldl_cons, ih, List.map_cons, List.sum_cons, List.filter_cons]
    by_cases hm : hd.2.type = JobType.manager <;>
      by_cases hr : hd.2.type = JobType.ralph <;>
        simp [hm, hr, add_assoc, Nat.add_comm]

/-- Claim C8: For every registry state, `GET /api/costs` reports: `totalCost` =
the sum of every registered job's current cost (then formatted with
`toFixed(4)`), `managerCalls` = the number of manager jobs,
`ralphIterations` = the sum of iteration counts over ralph jobs, and
`budgetRemaining` = the fixed $20 monthly ceiling minus `totalCost`
(formatted with `toFixed(2)`). -/
theorem C8_cost_summary (st : ServerState) :
    (getCosts st).totalCost
        = toFixedQ 4 ((st.activeJobs.map (fun p => p.2.cost)).sum)
    ∧ (getCosts st).managerCalls
        = (st.activeJobs.filter (fun p => p.2.type == JobType.manager)).length
    ∧ (getCosts st).ralphIterations
        = ((st.activeJobs.filter (fun p => p.2.type == JobType.ralph)).map
            (fun p => p.2.iterations)).sum
    ∧ (getCosts st).budgetRemaining
        = toFixedQ 2 (20 - (st.activeJobs.map (fun p => p.2.cost)).sum) := by
  simp [getCosts, costTotals, costFold_eq]

/-- The digit table never yields a decimal point. -/
theorem digitChar_ne_dot (n : Nat) : digitChar n ≠ '.' := by
  unfold RalphWeb.digitChar
  repeat' split
  all_goals decide

/-- The zero-padded fractional part has exactly `d` characters. -/
theorem fracDigits_length (d m : Nat) : (fracDigits d m).length = d := by
  induction d generalizing m with
  | zero => simp [fracDigits]
  | succ d ih => simp [fracDigits, ih]

/-- The fractional part consists of digit characters only. -/
theorem mem_fracDigits_ne_dot (d m : Nat) : ∀ c ∈ fracDigits d m, c ≠ '.' := by
  induction d generalizing m with
  | zero => simp [fracDigits]
  | succ d ih =>
    intro c hc
    simp only [fracDigits, List.mem_cons] at hc
    rcases hc with h | h
    · exact h ▸ digitChar_ne_dot _
    · exact ih _ c h

/-- `takeWhile` swallows a prefix on which the predicate holds and stops at
the first failing element. -/
theorem takeWhile_append_of_all (p : Char → Bool) (xs : List Char) (y : Char)
    (ys : List Char) (hxs : ∀ x ∈ xs, p x = true) (hy : p y = false) :
    (xs ++ y :: ys).takeWhile p = xs := by
  induction xs with
  | nil => simp [List.takeWhile, hy]
  | cons a l ih =>
    have ha : p a = true := hxs a (by simp)
    simp [List.takeWhile, ha, ih (fun x hx => hxs x (by simp [hx]))]

/-- A string of the shape `u ++ "." ++ v` with point-free `v` has exactly
`v.length` decimal places. -/
theorem decimalPlaces_eq (u v : List Char) (hv : ∀ c ∈ v, c ≠ '.') :
    decimalPlaces (u ++ '.' :: v) = some v.length := by
  unfold decimalPlaces
  rw [if_pos (by simp)]
  have h1 : (u ++ '.' :: v).reverse = v.reverse ++ '.' :: u.reverse := by
    simp
  rw [h1, takeWhile_append_of_all _ _ _ _ ?_ (by decide)]
  · simp
  · intro x hx
    have := hv x (List.mem_reverse.mp hx)
    simpa using this

/-- Below the `10 ^ 21` fallback threshold, `toFixed(d)` renders exactly
`d` digits after the point. -/
theorem decimalPlaces_toFixedQ (d : Nat) (q : ℚ) (h : |q| < 10 ^ 21) :
    decimalPlaces (toFixedQ d q) = some d := by
  unfold RalphWeb.toFixedQ
  rcases lt_or_le q 0 with hq | hq
  · rw [if_pos hq, if_neg (by rw [abs_of_neg hq] at h; exact not_le.mpr h)]
    show decimalPlaces ('-' :: (_ ++ '.' :: _)) = some d
    rw [← List.cons_append, decimalPlaces_eq _ _ (mem_fracDigits_ne_dot d _),
      fracDigits_length]
  · rw [if_neg (not_lt.mpr hq),
      if_neg (by rw [abs_of_nonneg hq] at h; exact not_le.mpr h)]
    unfold RalphWeb.toFixedNN
    rw [decimalPlaces_eq _ _ (mem_fracDigits_ne_dot d _), fracDigits_length]

/-- Evaluation of the `ToString` fallback at the huge total cost:
`toFixed(4)` of `1.02·10^22` is the exponential string "1.02e+22". -/
theorem toStringECMA_huge_total :
    toStringECMA (10200000000000000000000 : ℚ)
      = ('1' :: '.' :: '0' :: '2' :: 'e' :: '+' :: '2' :: '2' :: []) := by
  have hds : natDigits 10200000000000000000000
      = ('1' :: '0' :: '2' :: '0' :: '0' :: '0' :: '0' :: '0' :: '0' :: '0' :: '0' :: '0'
          :: '0' :: '0' :: '0' :: '0' :: '0' :: '0' :: '0' :: '0' :: '0' :: '0' :: '0' :: []) := by
    simp [natDigits, digitChar]
  have hm : ((10200000000000000000000 : ℚ).num.toNat / (10200000000000000000000 : ℚ).den)
      = 10200000000000000000000 := by
    simp [Rat.num_ofNat, Rat.den_ofNat]
  have h22 : natDigits 22 = ('2' :: '2' :: []) := by
    simp [natDigits, digitChar]
  unfold RalphWeb.toStringECMA
  rw [hm, hds]
  unfold RalphWeb.expNotation
  simp only [List.length_cons, List.length_nil]
  norm_num
  rw [h22]
  decide

/-- Evaluation of the `ToString` fallback at the corresponding budget
magnitude `1.02·10^22 − 20`. -/
theorem toStringECMA_huge_budget :
    toStringECMA (10199999999999999999980 : ℚ)
      = ('1' :: '.' :: '0' :: '1' :: '9' :: '9' :: '9' :: '9' :: '9' :: '9' :: '9' :: '9'
          :: '9' :: '9' :: '9' :: '9' :: '9' :: '9' :: '9' :: '9' :: '9' :: '9' :: '8'
          :: 'e' :: '+' :: '2' :: '2' :: []) := by
  have hds : natDigits 10199999999999999999980
      = ('1' :: '0' :: '1' :: '9' :: '9' :: '9' :: '9' :: '9' :: '9' :: '9' :: '9' :: '9'
          :: '9' :: '9' :: '9' :: '9' :: '9' :: '9' :: '9' :: '9' :: '9' :: '8' :: '0' :: []) := by
    simp [natDigits, digitChar]
  have hm : ((10199999999999999999980 : ℚ).num.toNat / (10199999999999999999980 : ℚ).den)
      = 10199999999999999999980 := by
    simp [Rat.num_ofNat, Rat.den_ofNat]
  have h22 : natDigits 22 = ('2' :: '2' :: []) := by
    simp [natDigits, digitChar]
  unfold RalphWeb.toStringECMA
  rw [hm, hds]
  unfold RalphWeb.expNotation
  simp only [List.length_cons, List.length_nil]
  norm_num
  rw [h22]
  decide

/-- Counterexample for claim C9: at a registry state whose job cost is
`1.02·10^22` — a cost the classifier itself produces from the chunk
"Loop Iteration 4000000000000000000000000" (third conjunct) — `toFixed`
falls back to `ToString`'s exponential notation, so `totalCost` is
"1.02e+22" (6 characters after the point, not 4) and `budgetRemaining` is
"-1.019999999999999999998e+22" (not 2 decimal places). -/
theorem C9_counterexample :
    decimalPlaces (getCosts sampleHugeState).totalCost ≠ some 4
    ∧ decimalPlaces (getCosts sampleHugeState).budgetRemaining ≠ some 2
    ∧ (onStdoutData 1 sampleStartedJob
        ("Loop Iteration 4000000000000000000000000".data)).1.cost
        = (10200000000000000000000 : ℚ) := by
  have h1 : (costTotals sampleHugeState).1 = (10200000000000000000000 : ℚ) := by
    simp [costTotals, sampleHugeState, sampleHugeJob, sampleStartedJob]
  have htc : (getCosts sampleHugeState).totalCost
      = toStringECMA (10200000000000000000000 : ℚ) := by
    show toFixedQ 4 (costTotals sampleHugeState).1 = _
    rw [h1]
    unfold RalphWeb.toFixedQ
    rw [if_neg (by norm_num), if_pos (by norm_num)]
  have hbc : (getCosts sampleHugeState).budgetRemaining
      = '-' :: toStringECMA (10199999999999999999980 : ℚ) := by
    show toFixedQ 2 (20 - (costTotals sampleHugeState).1) = _
    rw [h1]
    unfold RalphWeb.toFixedQ
    rw [if_pos (by norm_num)]
    rw [show -((20 : ℚ) - 10200000000000000000000)
          = (10199999999999999999980 : ℚ) by norm_num]
    rw [if_pos (by norm_num)]
  refine ⟨?_, ?_, ?_⟩
  · rw [htc, toStringECMA_huge_total]
    decide
  · rw [hbc, toStringECMA_huge_budget]
    decide
  · have hfm : findIterMatch ("Loop Iteration 4000000000000000000000000".data)
        = some 4000000000000000000000000 := by decide
    simp [onStdoutData, hfm]
    norm_num [perIterationRate]

/-- Claim C9 as amended: `GET /api/costs` returns `totalCost` and
`budgetRemaining` as strings and `managerCalls`/`ralphIterations` as plain
numbers (the `Nat`-valued fields of `CostsResp` versus its string-valued
fields); the strings are fixed-point with exactly 4 (resp. 2) digits after
the point whenever the corresponding value's magnitude is below `10^21` —
above that, `toFixed` returns `ToString`'s exponential notation instead. -/
theorem C9_amended (st : ServerState)
    (h1 : |(st.activeJobs.map (fun p => p.2.cost)).sum| < 10 ^ 21)
    (h2 : |20 - (st.activeJobs.map (fun p => p.2.cost)).sum| < 10 ^ 21) :
    decimalPlaces (getCosts st).totalCost = some 4
    ∧ decimalPlaces (getCosts st).budgetRemaining = some 2 := by
  have ht : (costTotals st).1 = (st.activeJobs.map (fun p => p.2.cost)).sum := by
    have h := congrArg Prod.fst (costFold_eq st.activeJobs (0, 0, 0))
    simpa [costTotals] using h
  constructor
  · show decimalPlaces (toFixedQ 4 (costTotals st).1) = some 4
    rw [ht]
    exact decimalPlaces_toFixedQ 4 _ h1
  · show decimalPlaces (toFixedQ 2 (20 - (costTotals st).1)) = some 2
    rw [ht]
    exact decimalPlaces_toFixedQ 2 _ h2

/-- Witness for claim C9: a registry whose total cost (0) and budget
remainder (20) are far below the `10^21` fallback threshold formats with
exactly 4 and 2 decimal places. -/
theorem C9_witness :
    decimalPlaces (getCosts sampleDetachedState).totalCost = some 4
    ∧ decimalPlaces (getCosts sampleDetachedState).budgetRemaining = some 2 :=
  C9_amended sampleDetachedState
    (by norm_num [sampleDetachedState, sampleDetachedJob, sampleStartedJob])
    (by norm_num [sampleDetachedState, sampleDetachedJob, sampleStartedJob])

/-- Claim C6: For every job and every output chunk whose text matches
`/Loop Iteration (\d+)/` with value `n`, the stdout handler sets the job's
iteration count to `n`, recomputes its cost as `n * perIterationRate`, and
broadcasts a `job_update` carrying exactly those values. -/
theorem C6_iteration_marker_sets_count_and_cost
    (jobId : Nat) (j : Job) (data : List Char) (n : Nat)
    (h : findIterMatch data = some n) :
    (onStdoutData jobId j data).1.iterations = n
    ∧ (onStdoutData jobId j data).1.cost = n * perIterationRate
    ∧ Event.jobUpdate jobId n (n * perIterationRate) ∈ (onStdoutData jobId j data).2 := by
  simp [onStdoutData, h]

/-- Witness for claim C6: feeding the classifier the text "Loop Iteration 3" sets
iteration to 3 and cost to `3 × perIterationRate`. -/
theorem C6_witness :
    (onStdoutData 1 sampleStartedJob ("Loop Iteration 3".data)).1.iterations = 3
    ∧ (onStdoutData 1 sampleStartedJob ("Loop Iteration 3".data)).1.cost
        = 3 * perIterationRate
    ∧ Event.jobUpdate 1 3 (3 * perIterationRate)
        ∈ (onStdoutData 1 sampleStartedJob ("Loop Iteration 3".data)).2 :=
  C6_iteration_marker_sets_count_and_cost 1 sampleStartedJob
    ("Loop Iteration 3".data) 3 (by decide)

/-- Claim C5: Starting an execution-loop job against a workspace that exists but
has no `prd.json` fails with the precondition error and leaves the registry
untouched: same state (no job record, job-id counter not consumed) and no
event broadcast. -/
theorem C5_no_prd_precondition_atomic
    (fsw : WorkspaceFS) (st : ServerState) (r : String)
    (hrepo : fsw.repoExists r = true) (hprd : fsw.prdExists r = false) :
    postRalph fsw st (some r) = (st, RalphResp.errNoPrd, []) := by
  simp [postRalph, hrepo, hprd]

/-- Witness for claim C5 at a concrete file system and registry. -/
theorem C5_witness :
    postRalph { repoExists := fun _ => true, prdExists := fun _ => false }
      sampleDetachedState (some ("demo"))
      = (sampleDetachedState, RalphResp.errNoPrd, []) :=
  C5_no_prd_precondition_atomic _ sampleDetachedState ("demo") rfl rfl

/-- Claim C10: For every known job id, `POST /api/jobs/:id/stop` responds
`{success: true}`; and when the job's process handle is null it does so
without signalling any process, without changing any registry state, and
without broadcasting any event. -/
theorem C10_stop_detached_noop
    (st : ServerState) (jobId : Nat) (job : Job)
    (h : st.getJob jobId = some job) :
    (postStop st jobId).2.1 = StopResp.success
    ∧ (job.hasProcess = false → postStop st jobId = (st, StopResp.success, [])) := by
  cases hp : job.hasProcess <;> simp [postStop, h, hp]

/-- Witness for claim C10: stopping the detached job succeeds and is a complete
no-op. -/
theorem C10_witness :
    (postStop sampleDetachedState 1).2.1 = StopResp.success
    ∧ postStop sampleDetachedState 1 = (sampleDetachedState, StopResp.success, []) := by
  refine ⟨(C10_stop_detached_noop sampleDetachedState 1 sampleDetachedJob (by decide)).1,
    (C10_stop_detached_noop sampleDetachedState 1 sampleDetachedJob (by decide)).2 rfl⟩


/-- Counterexample for claim C2: the stream "Loop Iteration 3" delivered
whole yields a `job_update` and a final iteration count of 3, but split at
offset 5 into "Loop " and "Iteration 3" it yields no `job_update` and a
final count of 0 — the classifier does not buffer partial lines. -/
theorem C2_counterexample :
    ("Loop ".data ++ "Iteration 3".data = "Loop Iteration 3".data)
    ∧ (processChunks 1 sampleStartedJob ["Loop Iteration 3".data]).1.iterations = 3
    ∧ (processChunks 1 sampleStartedJob ["Loop ".data, "Iteration 3".data]).1.iterations = 0
    ∧ (processChunks 1 sampleStartedJob ["Loop Iteration 3".data]).2.filter Event.isJobUpdate
        ≠ (processChunks 1 sampleStartedJob
            ["Loop ".data, "Iteration 3".data]).2.filter Event.isJobUpdate := by
  decide

/-- Claim C2 as amended: the classifier is chunk-local, with no partial-line
buffer. Delivering a chunk sequence in two batches yields exactly the same
derived events as delivering it in one (re-batching at chunk granularity is
invariant), and a single chunk yields a `job_update` exactly when its text
matches the iteration regex — so splitting a chunk's bytes at an arbitrary
offset need not preserve the derived events. -/
theorem C2_amended :
    (∀ (jobId : Nat) (j : Job) (cs ds : List (List Char)),
      processChunks jobId j (cs ++ ds)
        = ((processChunks jobId (processChunks jobId j cs).1 ds).1,
            (processChunks jobId j cs).2
              ++ (processChunks jobId (processChunks jobId j cs).1 ds).2))
    ∧ (∀ (jobId : Nat) (j : Job) (c : List Char),
        ((onStdoutData jobId j c).2.filter Event.isJobUpdate ≠ []
          ↔ (findIterMatch c).isSome = true)) := by
  constructor
  · intro jobId j cs ds
    induction cs generalizing j with
    | nil => simp [processChunks]
    | cons c cs ih => simp [processChunks, ih]
  · intro jobId j c
    cases h : findIterMatch c <;> simp [onStdoutData, h, Event.isJobUpdate]

/-- Counterexample for claim C4: stopping the running job transitions it to
`stopped`, yet a chunk emitted afterwards by the still-terminating process
still produces a `job_update` (and still overwrites the iteration count). -/
theorem C4_counterexample :
    (runActs 1 sampleStartedJob [Act.stop]).1.status = Status.stopped
    ∧ (runActs 1 sampleStartedJob
        [Act.stop, Act.chunk ("Loop Iteration 4".data)]).2.filter Event.isJobUpdate ≠ []
    ∧ (runActs 1 sampleStartedJob
        [Act.stop, Act.chunk ("Loop Iteration 4".data)]).1.iterations = 4 := by
  refine ⟨rfl, ?_, rfl⟩
  decide

/-- Claim C4 as amended: the stdout handler never consults the job's
status — the events it broadcasts for a chunk are the same whatever the
status, and processing a chunk leaves the status unchanged; hence output
arriving after Stop still yields `job_update` events for marker chunks. -/
theorem C4_amended (jobId : Nat) (j : Job) (c : List Char) (s : Status) :
    (onStdoutData jobId { j with status := s } c).2 = (onStdoutData jobId j c).2
    ∧ (onStdoutData jobId j c).1.status = j.status := by
  cases h : findIterMatch c <;> simp [onStdoutData, h]

/-- `getLastD` distributes over append. -/
theorem getLastD_append' (l m : List Nat) (d : Nat) :
    (l ++ m).getLastD d = m.getLastD (l.getLastD d) := by
  induction l generalizing d with
  | nil => rfl
  | cons a l ih =>
    rw [List.cons_append, List.getLastD_cons, ih, List.getLastD_cons]

/-- `getLastD` returns the default or a member of the list. -/
theorem getLastD_self_or_mem (l : List Nat) (d : Nat) :
    l.getLastD d = d ∨ l.getLastD d ∈ l := by
  induction l generalizing d with
  | nil => left; rfl
  | cons a l ih =>
    right
    rw [List.getLastD_cons]
    rcases ih a with h | h
    · rw [h]; exact List.mem_cons_self a l
    · exact List.mem_cons_of_mem a h

/-- The stored iteration count after a chunk sequence is the value of the
last matching marker, or the initial count if none matched. -/
theorem iterations_processChunks (jobId : Nat) (j : Job) (cs : List (List Char)) :
    (processChunks jobId j cs).1.iterations
      = (cs.filterMap findIterMatch).getLastD j.iterations := by
  induction cs generalizing j with
  | nil => rfl
  | cons c cs ih =>
    cases h : findIterMatch c with
    | none =>
      rw [List.filterMap_cons_none h]
      show (processChunks jobId (onStdoutData jobId j c).1 cs).1.iterations = _
      rw [show (onStdoutData jobId j c).1 = j by simp [onStdoutData, h]]
      exact ih j
    | some n =>
      rw [List.filterMap_cons_some h, List.getLastD_cons]
      show (processChunks jobId (onStdoutData jobId j c).1 cs).1.iterations = _
      rw [show (onStdoutData jobId j c).1
            = { j with iterations := n, cost := n * perIterationRate } by
          simp [onStdoutData, h]]
      exact ih _

/-- Counterexample for claim C7: the chunk sequence "Loop Iteration 5",
"Loop Iteration 2" drives the stored iteration count from 5 down to 2 —
the handler assigns the matched value, it does not take a maximum. -/
theorem C7_counterexample :
    (processChunks 1 sampleStartedJob ["Loop Iteration 5".data]).1.iterations = 5
    ∧ (processChunks 1 sampleStartedJob
        ["Loop Iteration 5".data, "Loop Iteration 2".data]).1.iterations = 2
    ∧ 2 < 5 := by
  refine ⟨rfl, rfl, by decide⟩

/-- Claim C7 as amended: the stored iteration count is non-decreasing over
the job's lifetime provided the marker values occurring in the output
stream are themselves non-decreasing (as the loop script's 1, 2, 3, ...
numbering produces); the classifier copies the matched value, so an
out-of-order marker value decreases the count. -/
theorem C7_amended (jobId : Nat) (j : Job) (cs ds : List (List Char))
    (h : List.Sorted (· ≤ ·) (j.iterations :: (cs ++ ds).filterMap findIterMatch)) :
    (processChunks jobId j cs).1.iterations
      ≤ (processChunks jobId j (cs ++ ds)).1.iterations := by
  rw [iterations_processChunks, iterations_processChunks, List.filterMap_append,
    getLastD_append']
  rcases getLastD_self_or_mem (ds.filterMap findIterMatch)
      ((cs.filterMap findIterMatch).getLastD j.iterations) with h0 | h0
  · rw [h0]
  · have hp : List.Pairwise (· ≤ ·)
        ((j.iterations :: cs.filterMap findIterMatch) ++ ds.filterMap findIterMatch) := by
      rw [List.filterMap_append] at h
      exact h
    have hrel := (List.pairwise_append.mp hp).2.2
    refine hrel _ ?_ _ h0
    rcases getLastD_self_or_mem (cs.filterMap findIterMatch) j.iterations with h1 | h1
    · rw [h1]; exact List.mem_cons_self _ _
    · exact List.mem_cons_of_mem _ h1

/-- Witness for claim C7: an in-order marker sequence (2 then 3) keeps the
count non-decreasing. -/
theorem C7_witness :
    (processChunks 1 sampleStartedJob ["Loop Iteration 2".data]).1.iterations
      ≤ (processChunks 1 sampleStartedJob
          (["Loop Iteration 2".data] ++ ["Loop Iteration 3".data])).1.iterations :=
  C7_amended 1 sampleStartedJob _ _ (by decide)

/-- Every single action preserves the process handle: the source never sets
`job.process` back to null. -/
theorem applyAct_hasProcess (jobId : Nat) (j : Job) (a : Act) :
    (applyAct jobId j a).1.hasProcess = j.hasProcess := by
  cases a with
  | chunk c => cases h : findIterMatch c <;> simp [applyAct, onStdoutData, h]
  | stop => by_cases hp : j.hasProcess <;> simp [applyAct, hp]
  | close code => simp [applyAct, onClose]

/-- Action traces preserve the process handle. -/
theorem runActs_hasProcess (jobId : Nat) (j : Job) (acts : List Act) :
    (runActs jobId j acts).1.hasProcess = j.hasProcess := by
  induction acts generalizing j with
  | nil => rfl
  | cons a as ih =>
    show (runActs jobId (applyAct jobId j a).1 as).1.hasProcess = _
    rw [ih, applyAct_hasProcess]

/-- Running a concatenated trace equals running the parts in sequence. -/
theorem runActs_append (jobId : Nat) (j : Job) (as bs : List Act) :
    runActs jobId j (as ++ bs)
      = ((runActs jobId (runActs jobId j as).1 bs).1,
          (runActs jobId j as).2 ++ (runActs jobId (runActs jobId j as).1 bs).2) := by
  induction as generalizing j with
  | nil => simp [runActs]
  | cons a as ih => simp [runActs, ih]

/-- Counterexample for claim C1: the exit callback overwrites a prior
terminal `stopped` with `completed` (exit code 0), and calling Stop on an
already-`completed` job whose process handle is still attached changes its
registry status to `stopped` — terminal statuses are not preserved. -/
theorem C1_counterexample :
    (onClose 1 sampleStoppedJob 0).1.status = Status.completed
    ∧ ((postStop sampleCompletedState 1).1.getJob 1).map Job.status
        = some Status.stopped
    ∧ Status.completed ≠ Status.stopped :=
  ⟨rfl, rfl, by decide⟩

/-- Claim C1 as amended: terminal statuses are not sticky. For every
interleaving of stop requests, output chunks and the exit callback, the
job's final status is decided by whichever status-writing action runs
last: a trace ending in the exit callback ends `completed`/`failed`
according to the exit code (even if Stop ran first), and a trace ending in
Stop ends `stopped` whenever the job has a process handle (even if it was
already terminal). Stop on a terminal job is a status overwrite, not a
no-op, unless the handle is null. -/
theorem C1_amended (jobId : Nat) (j : Job) (acts : List Act) (code : Int) :
    ((runActs jobId j (acts ++ [Act.close code])).1.status
        = if code = 0 then Status.completed else Status.failed)
    ∧ (j.hasProcess = true →
        (runActs jobId j (acts ++ [Act.stop])).1.status = Status.stopped) := by
  constructor
  · rw [runActs_append]
    show (applyAct jobId (runActs jobId j acts).1 (Act.close code)).1.status = _
    simp [applyAct, onClose]
  · intro hp
    rw [runActs_append]
    show (applyAct jobId (runActs jobId j acts).1 Act.stop).1.status = _
    have hh := runActs_hasProcess jobId j acts
    rw [hp] at hh
    simp [applyAct, hh]

/-- Witness for claim C1: Stop then natural exit ends `completed`; failed
exit then Stop ends `stopped`. -/
theorem C1_witness :
    (runActs 1 sampleStartedJob ([Act.stop] ++ [Act.close 0])).1.status
        = Status.completed
    ∧ (runActs 1 sampleStartedJob ([Act.close 1] ++ [Act.stop])).1.status
        = Status.stopped := by
  constructor
  · have h := (C1_amended 1 sampleStartedJob [Act.stop] 0).1
    simpa using h
  · exact (C1_amended 1 sampleStartedJob [Act.close 1] 0).2 rfl

/-- Counterexample for claim C3: a chunk containing the fatal marker
"Rate limit exceeded" leaves the server-side job untouched — running
status, no SIGTERM, only a `log` broadcast. The server triggers no Stop on
fatal output. -/
theorem C3_counterexample :
    RalphSh.grepMatch RalphSh.rateLimitMarker ("Rate limit exceeded".data) = true
    ∧ onStdoutData 1 sampleStartedJob ("Rate limit exceeded".data)
        = (sampleStartedJob, [Event.log 1 "Rate limit exceeded".data]) :=
  ⟨by decide, rfl⟩

/-- Claim C3 as amended: no component performs a marker-triggered Stop.
The server's output path never signals the process and never changes the
status for any chunk, marker or not. The script's safety greps
(`ralph.sh` 239-247) are dead code: under `set -e` the first loop-body
command `((ITERATION++))` fails on first entry, so for every environment —
whatever the tool results or story counts — the script exits with code 1
at iteration 1 without running the tool (or exits 1 immediately when
`MAX_ITERATIONS = 0`); the job then becomes `failed` — not `stopped` —
through the ordinary exit callback. -/
theorem C3_amended :
    (∀ (jobId : Nat) (j : Job) (c : List Char),
        (onStdoutData jobId j c).1.killed = j.killed
        ∧ (onStdoutData jobId j c).1.status = j.status)
    ∧ (∀ (incomplete : Nat → Nat) (results : Nat → List Char)
        (maxIterations : Nat),
        RalphSh.ralphLoop maxIterations incomplete results
          = { exitCode := 1,
              lastIteration := if maxIterations = 0 then 0 else 1 })
    ∧ (∀ (jobId : Nat) (j : Job), (onClose jobId j 1).1.status = Status.failed) := by
  refine ⟨?_, ?_, ?_⟩
  · intro jobId j c
    cases h : findIterMatch c <;> simp [onStdoutData, h]
  · intro incomplete results maxIterations
    cases maxIterations with
    | zero => rfl
    | succ n => simp [RalphSh.ralphLoop, RalphSh.loopFrom]
  · intro jobId j
    rfl
